import Mathlib

/-!
Verification of the AInsta moderation backend (`src/backend`): a shallow
embedding of the response normalizer, the generation retry client, the
multi-style orchestrator, the Perspective toxicity wrapper, the analyze
endpoint and the CSV logger, together with theorems settling the stated
properties of the specification.

Python strings are modelled as `List Char`; floats (toxicity scores,
thresholds, improvements) are modelled as exact rationals `ℚ`; blocking
network calls are modelled as explicit oracle functions passed in as
parameters; wall-clock timing fields (`generation_time`,
`processing_time_seconds`) are not modelled, as no stated property
constrains them.
-/

namespace AInsta

/-- A Python string, modelled as its list of characters. -/
abbrev Str := List Char

/-- Whitespace as recognised by Python `str.strip()` / `str.split()`,
restricted to the ASCII whitespace characters (space, tab, newline,
carriage return, vertical tab, form feed). -/
def isSpace (c : Char) : Bool :=
  c == ' ' || c == '\t' || c == '\n' || c == '\r' ||
    c == Char.ofNat 11 || c == Char.ofNat 12

/-- Python `s.strip()`: drop leading and trailing whitespace. -/
def pyStrip (s : Str) : Str :=
  ((s.dropWhile isSpace).reverse.dropWhile isSpace).reverse

/-- ASCII lower-casing of one character, modelling Python `str.lower()`
on the character range the scaffolding prefixes use. -/
def asciiLower (c : Char) : Char :=
  if 65 ≤ c.toNat && c.toNat ≤ 90 then Char.ofNat (c.toNat + 32) else c

/-- Python `s.lower()`. -/
def lowerStr (s : Str) : Str := s.map asciiLower

/-- The apostrophe character (U+0027). -/
def aposChar : Char := Char.ofNat 39

/-- The double-quote character (U+0022). -/
def quoteChar : Char := Char.ofNat 34

/-- The fixed list `prefixes_to_remove` of `_clean_response`, in source
order. -/
def prefixesToRemove : List Str :=
  [ "rephrased comment:".toList
  , "rephrase:".toList
  , "alternative:".toList
  , "better version:".toList
  , "neutral rephrase:".toList
  , "friendly rephrase:".toList
  , "formal rephrase:".toList
  , "here".toList ++ [aposChar] ++ "s a".toList
  , "a better way".toList
  , "instead:".toList
  , "rephrased:".toList ]

/-- One iteration of the prefix-removal loop of `_clean_response`:
`if cleaned.lower().startswith(prefix.lower()): cleaned = cleaned[len(prefix):].strip()`. -/
def stripOnePrefix (cur : Str) (p : Str) : Str :=
  if (lowerStr p).isPrefixOf (lowerStr cur) then pyStrip (cur.drop p.length) else cur

/-- The whole prefix-removal loop: the fixed list is scanned once, in
order. -/
def stripPrefixes (s : Str) : Str :=
  prefixesToRemove.foldl stripOnePrefix s

/-- Python `cleaned.startswith(chr(34))`. -/
def startsWithQuote (s : Str) : Bool :=
  match s.head? with
  | some c => c == quoteChar
  | none => false

/-- Python `cleaned.endswith(chr(34))`. -/
def endsWithQuote (s : Str) : Bool :=
  match s.getLast? with
  | some c => c == quoteChar
  | none => false

/-- The quote-stripping step of `_clean_response`:
`if cleaned.startswith(quote) and cleaned.endswith(quote): cleaned = cleaned[1:-1].strip()`. -/
def unquote (s : Str) : Str :=
  if startsWithQuote s && endsWithQuote s then pyStrip ((s.drop 1).dropLast) else s

/-- Helper for `words`: the accumulator holds the current in-progress
word, reversed. -/
def wordsAux : Str → Str → List Str
  | [], acc => if acc.isEmpty then [] else [acc.reverse]
  | c :: cs, acc =>
    if isSpace c then
      if acc.isEmpty then wordsAux cs [] else acc.reverse :: wordsAux cs []
    else wordsAux cs (c :: acc)

/-- Python `s.split()` with no argument: the maximal runs of
non-whitespace characters, in order; no empty words. -/
def words (s : Str) : List Str := wordsAux s []

/-- Python `chr(32).join(ws)`: interleave single spaces. -/
def joinSp : List Str → Str
  | [] => []
  | [w] => w
  | w :: w2 :: ws => w ++ ' ' :: joinSp (w2 :: ws)

/-- The whitespace-collapsing step of `_clean_response`:
`cleaned = chr(32).join(cleaned.split())`. -/
def collapseSpaces (s : Str) : Str := joinSp (words s)

/-- The three accepted terminal punctuation characters. -/
def isPunct (c : Char) : Bool := c == '.' || c == '!' || c == '?'

/-- The punctuation step of `_clean_response`: append a period when the
string is non-empty and does not already end in `.`, `!` or `?`. -/
def punctuate (s : Str) : Str :=
  match s.getLast? with
  | none => s
  | some c => if isPunct c then s else s ++ ['.']

/-- `LlamaRephrase._clean_response`: strip surrounding whitespace, strip
scaffolding prefixes (one scan of the fixed list, in order), strip one
wrapping quote pair, collapse internal whitespace runs, and enforce
terminal punctuation. -/
def cleanResponse (s : Str) : Str :=
  punctuate (collapseSpaces (unquote (stripPrefixes (pyStrip s))))

/-! ## Rephrasing styles and the fallback pool (`llama.py`) -/

/-- `RephrasingStyle`: the closed enumeration of rephrasing styles. -/
inductive Style where
  | neutral
  | friendly
  | formal
deriving DecidableEq

/-- The `.value` string of a `RephrasingStyle` member. -/
def styleValue : Style → Str
  | .neutral => "neutral".toList
  | .friendly => "friendly".toList
  | .formal => "formal".toList

/-- The fixed pool `fallback_messages` of `_get_fallback_message`, in
source order. -/
def fallbackMessages : List Str :=
  [ "I understand you have concerns about this topic.".toList
  , "Thank you for sharing your perspective.".toList
  , "I appreciate you taking the time to comment.".toList
  , "Your feedback has been noted.".toList
  , "I recognize this is an important issue to you.".toList ]

/-- `LlamaRephrase._get_fallback_message`: index the pool by
`len(toxic_comment) % len(fallback_messages)`. -/
def getFallbackMessage (toxicComment : Str) : Str :=
  fallbackMessages.getD (toxicComment.length % fallbackMessages.length) []

/-! ## Generation client (`LlamaRephrase._generate_single_rephrase`)

An oracle call (`requests.post` against the Ollama generate endpoint)
is modelled as a function from the attempt index to its outcome: an
HTTP response with a status code and a response text, or a raised
`RequestException` carrying a message.  The prompt, decoding options
and timeout sent with the request do not influence the client's control
flow and are absorbed into the oracle. -/

/-- Outcome of one generation-oracle call. -/
inductive GenResp where
  | ok (status : Nat) (body : Str)
  | exn (msg : Str)

/-- Decimal digits of a number, modelling Python string interpolation
of an `int`. -/
def natStr (n : Nat) : Str := Nat.toDigits 10 n

/-- The error text `f-string` of the transport-failure branch:
`Request failed after {max_retries} attempts: {str(e)}`. -/
def transportMsg (maxRetries : Nat) (cause : Str) : Str :=
  "Request failed after ".toList ++ natStr maxRetries ++
    " attempts: ".toList ++ cause

/-- The error text of the exhausted-retries branch:
`Failed to generate {style.value} rephrase after {max_retries} attempts`. -/
def unusableMsg (style : Style) (maxRetries : Nat) : Str :=
  "Failed to generate ".toList ++ styleValue style ++
    " rephrase after ".toList ++ natStr maxRetries ++ " attempts".toList

/-- Result dictionary of `_generate_single_rephrase`. -/
structure SingleResult where
  success : Bool
  rephrasedText : Str := []
  error : Str := []
  attempt : Nat := 0
deriving DecidableEq

/-- The usability test on the cleaned text:
`if rephrased_text and len(rephrased_text) > 5`. -/
def usableText (t : Str) : Bool := !t.isEmpty && decide (5 < t.length)

/-- Account for one more oracle call in front of a loop continuation. -/
def bumpCall (p : SingleResult × Nat) : SingleResult × Nat := (p.1, p.2 + 1)

/-- The retry loop of `_generate_single_rephrase`.  `rem` is the number
of loop iterations left and `attempt` the current index of
`range(max_retries)`; the second component counts oracle calls made.
Reaching `rem = 0` is falling off the loop into the final return. -/
def genAux (oracle : Nat → GenResp) (style : Style) (maxRetries : Nat) :
    Nat → Nat → SingleResult × Nat
  | 0, _ => ({ success := false, error := unusableMsg style maxRetries }, 0)
  | rem + 1, attempt =>
    match oracle attempt with
    | .ok status body =>
      if status == 200 then
        let cleaned := cleanResponse (pyStrip body)
        if usableText cleaned then
          ({ success := true, rephrasedText := cleaned, attempt := attempt + 1 }, 1)
        else
          bumpCall (genAux oracle style maxRetries rem (attempt + 1))
      else
        bumpCall (genAux oracle style maxRetries rem (attempt + 1))
    | .exn e =>
      if attempt == maxRetries - 1 then
        ({ success := false, error := transportMsg maxRetries e }, 1)
      else
        bumpCall (genAux oracle style maxRetries rem (attempt + 1))

/-- `LlamaRephrase._generate_single_rephrase`, returning the result
dictionary together with the number of oracle calls made. -/
def generateSingleRephrase (oracle : Nat → GenResp) (style : Style)
    (maxRetries : Nat) : SingleResult × Nat :=
  genAux oracle style maxRetries maxRetries 0

/-! ## Multi-style orchestrator (`LlamaRephrase.generate_multiple_rephrases`) -/

/-- One entry of the `rephrases` list of the orchestrator result
(`style.value`, cleaned text, attempt count; the wall-clock
`generation_time` is not modelled). -/
structure RephraseEntry where
  style : Str
  text : Str
  attempts : Nat
deriving DecidableEq

/-- One entry of the `errors` list of the orchestrator result. -/
structure ErrorEntry where
  style : Str
  error : Str
deriving DecidableEq

/-- Result dictionary of `generate_multiple_rephrases`. -/
structure MultiResult where
  success : Bool
  originalText : Str
  toxicityScore : Option ℚ
  rephrases : List RephraseEntry
  errors : List ErrorEntry
  modelUsed : Str
  fallbackMessage : Option Str
deriving DecidableEq

/-- The per-style loop of `generate_multiple_rephrases`: each style
yields a rephrase entry on success and an error entry on failure, and
processing continues with the remaining styles either way.  The oracle
is per style and attempt. -/
def processStyles (oracle : Style → Nat → GenResp) (maxRetries : Nat) :
    List Style → List RephraseEntry × List ErrorEntry
  | [] => ([], [])
  | st :: rest =>
    let r := (generateSingleRephrase (oracle st) st maxRetries).1
    let prev := processStyles oracle maxRetries rest
    if r.success then
      ({ style := styleValue st, text := r.rephrasedText, attempts := r.attempt } :: prev.1,
        prev.2)
    else
      (prev.1, { style := styleValue st, error := r.error } :: prev.2)

/-- The default style list used when `styles is None`. -/
def defaultStyles : List Style := [.neutral, .friendly, .formal]

/-- `LlamaRephrase.generate_multiple_rephrases` (default
`max_retries = 2`); `styles = none` models passing `None`. -/
def generateMultipleRephrases (oracle : Style → Nat → GenResp)
    (modelName : Str) (toxicComment : Str) (toxicityScore : Option ℚ)
    (styles : Option (List Style)) (maxRetries : Nat := 2) : MultiResult :=
  let sts := styles.getD defaultStyles
  let prev := processStyles oracle maxRetries sts
  { success := !prev.1.isEmpty
    originalText := toxicComment
    toxicityScore := toxicityScore
    rephrases := prev.1
    errors := prev.2
    modelUsed := modelName
    fallbackMessage :=
      if prev.1.isEmpty then some (getFallbackMessage toxicComment) else none }

/-! ## Perspective wrapper (`perspective.py`) -/

/-- Outcome of one `PerspectiveAPI.analyze_comment` call: on success
the parsed toxicity entry (summary score and optional confidence) when
the `TOXICITY` attribute is present in the response, on any exception a
failure dictionary with the error text. -/
inductive PResp where
  | ok (toxicity : Option (ℚ × Option ℚ))
  | err (msg : Str)

/-- A Perspective oracle: the outcome of analyzing a given text. -/
abbrev POracle := Str → PResp

/-- `PerspectiveAPI.is_toxic`: `(False, 0.0)` when `analyze_comment`
failed, otherwise `(score > threshold, score)` with the score read via
`results.get(toxicity, {}).get(score, 0.0)`. -/
def pIsToxic (pApi : POracle) (text : Str) (threshold : ℚ) : Bool × ℚ :=
  match pApi text with
  | .err _ => (false, 0)
  | .ok tox =>
    let score := (tox.map Prod.fst).getD 0
    (decide (score > threshold), score)

/-! ## Analyze endpoint (`main.py`, `analyze_comment_advanced`) -/

/-- An `HTTPException` raised by the endpoint. -/
structure HTTPError where
  status : Nat
  detail : Str
deriving DecidableEq

/-- `AdvancedCommentRequest` with its pydantic defaults. -/
structure AnalyzeRequest where
  text : Str
  threshold : ℚ := 7/10
  includeRephrase : Bool := true
  styles : List Style := defaultStyles
  maxRephrases : Nat := 3

/-- The `toxicity` dictionary of the analyze result.  `confidence` is
`none` when the oracle reported the attribute without a confidence
value (Python stores `None` there). -/
structure ToxicityInfo where
  score : ℚ
  isToxic : Bool
  confidence : Option ℚ
  thresholdUsed : ℚ
deriving DecidableEq

/-- One entry of the endpoint's `rephrases` list. -/
structure RephraseOut where
  style : Str
  text : Str
  toxicityScore : ℚ
  improvement : ℚ
deriving DecidableEq

/-- The `AdvancedAnalysisResult` response model (timing field not
modelled). -/
structure AnalyzeResult where
  originalText : Str
  toxicity : ToxicityInfo
  rephrases : List RephraseOut
  success : Bool
  errorMessage : Option Str
  fallbackUsed : Bool
deriving DecidableEq

/-- Detail string of the 503 raised when the Perspective client was
never constructed. -/
def perspectiveUnavailableMsg : Str :=
  "Perspective API not available. Check GOOGLE_API_KEY environment variable.".toList

/-- Rendering of the orchestrator error list interpolated into
`f"Rephrasing failed: {errors}"`; the exact Python `repr` of the list
of dictionaries is abstracted to a semicolon-joined rendering. -/
def renderErrors (es : List ErrorEntry) : Str :=
  joinSp (es.map (fun e => e.style ++ ": ".toList ++ e.error))

/-- The per-rewrite verification step of `analyze_comment_advanced`:
each generated rewrite is re-scored through `is_toxic` with the default
threshold 0.7 and the improvement is the original score minus the
rewrite's score. -/
def scoreRephrases (p : POracle) (originalScore : ℚ)
    (entries : List RephraseEntry) : List RephraseOut :=
  entries.map (fun rd =>
    { style := rd.style, text := rd.text
      toxicityScore := (pIsToxic p rd.text (7/10)).2
      improvement := originalScore - (pIsToxic p rd.text (7/10)).2 })

/-- The fallback entry appended when rephrasing completely failed:
fixed style tag, assumed-safe score 0.1, and the corresponding
improvement. -/
def fallbackEntry (originalScore : ℚ) (fb : Str) : RephraseOut :=
  { style := "fallback".toList, text := fb
    toxicityScore := 1/10, improvement := originalScore - 1/10 }

/-- `analyze_comment_advanced`.  `pApi = none` / `llama = none` model
the corresponding service objects being `None` (failed initialization);
an unreachable oracle is a `pApi` whose calls return `PResp.err`.
Logging is a side effect and does not alter the returned value; the
final catch-all `except` is unreachable in this total model. -/
def analyzeCommentAdvanced (pApi : Option POracle)
    (llama : Option (Style → Nat → GenResp)) (modelName : Str)
    (req : AnalyzeRequest) : Except HTTPError AnalyzeResult :=
  match pApi with
  | none => .error { status := 503, detail := perspectiveUnavailableMsg }
  | some p =>
    let text := pyStrip req.text
    if text.isEmpty then
      .error { status := 400, detail := "Text cannot be empty".toList }
    else if 2000 < text.length then
      .error { status := 400, detail := "Text too long (max 2000 characters)".toList }
    else
      let pres := pIsToxic p text req.threshold
      let confidence : Option ℚ :=
        match p text with
        | .ok (some (_, c)) => c
        | _ => some 0
      let toxicity : ToxicityInfo :=
        { score := pres.2, isToxic := pres.1
          confidence := confidence, thresholdUsed := req.threshold }
      let base : AnalyzeResult :=
        { originalText := text, toxicity := toxicity, rephrases := []
          success := true, errorMessage := none, fallbackUsed := false }
      match llama with
      | some gen =>
        if pres.1 && req.includeRephrase then
          let rr := generateMultipleRephrases gen modelName text
            (some pres.2) (some (req.styles.take req.maxRephrases))
          if rr.success && !rr.rephrases.isEmpty then
            .ok { base with rephrases := scoreRephrases p pres.2 rr.rephrases }
          else
            match rr.fallbackMessage with
            | some fb =>
              .ok { base with
                fallbackUsed := true
                rephrases := [fallbackEntry pres.2 fb]
                errorMessage := some "Rephrasing failed, using fallback response".toList }
            | none =>
              .ok { base with
                errorMessage := some ("Rephrasing failed: ".toList ++ renderErrors rr.errors) }
        else
          .ok base
      | none =>
        if pres.1 && req.includeRephrase then
          .ok { base with
            errorMessage := some "Rephrasing requested but LLaMA service not available".toList }
        else
          .ok base

/-- The Perspective entry of the `/health` status dictionary: the
client object may be missing (`not_available`), and an existing client
is probed with one `analyze_comment` call (`healthy` on success,
`error` otherwise; `analyze_comment` traps its own exceptions). -/
def healthPerspective (pApi : Option POracle) : Str :=
  match pApi with
  | none => "not_available".toList
  | some p =>
    match p "Hello world test".toList with
    | .ok _ => "healthy".toList
    | .err _ => "error".toList

/-! ## Logger (`logging_system.py`, `ToxicityLogger.log_analysis`) -/

/-- One rephrase dictionary as consumed by `log_analysis`
(`toxicity_score` may be absent, hence the option). -/
structure LogRephrase where
  style : Str
  text : Str
  toxicityScore : Option ℚ
deriving DecidableEq

/-- The three style keys of the per-style columns (`rephrase_data`). -/
def trackedStyles : List Str :=
  ["neutral".toList, "friendly".toList, "formal".toList]

/-- One iteration of the `best_improvement` accumulation of
`log_analysis`: a rephrase whose style is a tracked key contributes
`max(best, original_score - rephrase.get(toxicity_score, original_score))`,
any other style leaves the accumulator unchanged. -/
def bestStep (originalScore : ℚ) (acc : ℚ) (r : LogRephrase) : ℚ :=
  if trackedStyles.contains r.style then
    max acc (originalScore - r.toxicityScore.getD originalScore)
  else acc

/-- The `best_improvement` value computed by `log_analysis`, starting
from `0.0`. -/
def bestImprovement (originalScore : ℚ) (rephrases : List LogRephrase) : ℚ :=
  rephrases.foldl (bestStep originalScore) 0

/-! ## Instrumented prefix removal

`stripPrefixesCount` performs exactly the prefix-removal scan of
`stripPrefixes` while counting how many list entries matched (each
match performs one removal). -/

/-- One counting iteration of the prefix-removal loop; the first
component evolves exactly as in `stripOnePrefix`. -/
def stripCountStep (acc : Str × Nat) (p : Str) : Str × Nat :=
  if (lowerStr p).isPrefixOf (lowerStr acc.1) then
    (pyStrip (acc.1.drop p.length), acc.2 + 1)
  else acc

/-- The prefix-removal scan with a removal counter. -/
def stripPrefixesCount (s : Str) : Str × Nat :=
  prefixesToRemove.foldl stripCountStep (s, 0)

/-- Number of scaffolding prefixes removed during one normalization
pass on input `s` (the scan runs on the whitespace-trimmed text). -/
def removedPrefixCount (s : Str) : Nat :=
  (stripPrefixesCount (pyStrip s)).2

/-! ## Observers on endpoint results -/

/-- Whether the endpoint returned a response (no raised `HTTPException`). -/
def isOkResult (x : Except HTTPError AnalyzeResult) : Bool :=
  match x with
  | .ok _ => true
  | .error _ => false

/-- The `rephrases` list of a returned response (empty on an error). -/
def okRephrases (x : Except HTTPError AnalyzeResult) : List RephraseOut :=
  match x with
  | .ok r => r.rephrases
  | .error _ => []

/-- The original toxicity score of a returned response (0 on an error). -/
def okScore (x : Except HTTPError AnalyzeResult) : ℚ :=
  match x with
  | .ok r => r.toxicity.score
  | .error _ => 0

/-- The `is_toxic` flag of a returned response. -/
def okIsToxic (x : Except HTTPError AnalyzeResult) : Bool :=
  match x with
  | .ok r => r.toxicity.isToxic
  | .error _ => false

/-- The `success` flag of a returned response. -/
def okSuccess (x : Except HTTPError AnalyzeResult) : Bool :=
  match x with
  | .ok r => r.success
  | .error _ => false

/-! ## Word structure of collapsed text (proof infrastructure) -/

/-- A word as produced by `words`: non-empty and free of whitespace. -/
def goodWord (w : Str) : Prop :=
  w ≠ [] ∧ ∀ c ∈ w, isSpace c = false

/-- All words of a list are good. -/
def goodWords (ws : List Str) : Prop :=
  ∀ w ∈ ws, goodWord w

/-- The oracle usability test mirrored by the retry loop: an HTTP 200
response whose cleaned body passes the length check. -/
def usableResp (r : GenResp) : Bool :=
  match r with
  | .ok status body => status == 200 && usableText (cleanResponse (pyStrip body))
  | .exn _ => false

/-! ## Concrete inputs used by the witnesses -/

/-- A generation oracle whose transport always fails. -/
def oracleDown : Nat → GenResp := fun _ => .exn "connection refused".toList

/-- A per-style generation oracle whose transport always fails. -/
def oracleStylesDown : Style → Nat → GenResp := fun _ _ => .exn "connection refused".toList

/-- A Perspective oracle that scores every text 0.85 with confidence 0.9. -/
def pOracleToxic : POracle := fun _ => .ok (some (17/20, some (9/10)))

/-- A Perspective oracle whose calls always fail. -/
def pOracleDown : POracle := fun _ => .err "unreachable".toList

/-- A generation oracle that always answers HTTP 200 with a fixed body. -/
def genOracleOk : Style → Nat → GenResp :=
  fun _ _ => .ok 200 "This is a polite rephrase".toList

/-- A request for one neutral rewrite used by the witnesses. -/
def reqPolite : AnalyzeRequest :=
  { text := "You are a fool".toList, styles := [Style.neutral] }

/-- A concrete logged rephrase dictionary used by a witness. -/
def logAttempt : LogRephrase :=
  { style := "neutral".toList, text := [], toxicityScore := some (1/4) }

/-- The first rewrite entry reported by the witness pipeline run of
`reqPolite` against `pOracleToxic` and `genOracleOk`. -/
def rephraseNeutralOut : RephraseOut :=
  { style := "neutral".toList, text := "This is a polite rephrase.".toList
    toxicityScore := 17/20, improvement := 0 }

/-! # Theorems

First the infrastructure about `words` / `joinSp`, then the claim
theorems. -/

theorem takeWhile_all_append {p : Char → Bool} (w rest : Str)
    (h : ∀ c ∈ w, p c = true) :
    (w ++ rest).takeWhile p = w ++ rest.takeWhile p := by
  induction w with
  | nil => simp
  | cons c cs ih =>
    have hc : p c = true := h c (by simp)
    simp [List.takeWhile_cons_of_pos hc,
      ih (fun d hd => h d (by simp [hd]))]

theorem dropWhile_all_append {p : Char → Bool} (w rest : Str)
    (h : ∀ c ∈ w, p c = true) :
    (w ++ rest).dropWhile p = rest.dropWhile p := by
  induction w with
  | nil => simp
  | cons c cs ih =>
    have hc : p c = true := h c (by simp)
    simp [List.dropWhile_cons_of_pos hc,
      ih (fun d hd => h d (by simp [hd]))]

theorem words_cons_space {c : Char} (cs : Str) (h : isSpace c = true) :
    words (c :: cs) = words cs := by
  simp [words, wordsAux, h]

theorem wordsAux_acc_ne_nil (cs : Str) :
    ∀ acc : Str, acc ≠ [] →
      wordsAux cs acc =
        (acc.reverse ++ cs.takeWhile (fun d => !isSpace d)) ::
          words (cs.dropWhile (fun d => !isSpace d)) := by
  induction cs with
  | nil =>
    intro acc hacc
    simp [wordsAux, words, List.isEmpty_eq_false.mpr hacc]
  | cons d ds ih =>
    intro acc hacc
    by_cases hd : isSpace d = true
    · simp only [wordsAux, hd, if_true, List.isEmpty_eq_false.mpr hacc,
        Bool.false_eq_true, if_false]
      rw [List.takeWhile_cons_of_neg (by simp [hd]),
        List.dropWhile_cons_of_neg (by simp [hd]),
        List.append_nil, words_cons_space ds hd]
      rfl
    · have hb : isSpace d = false := by simpa using hd
      simp only [wordsAux, hb, Bool.false_eq_true, if_false]
      rw [ih (d :: acc) (by simp),
        List.takeWhile_cons_of_pos (by simp [hb]),
        List.dropWhile_cons_of_pos (by simp [hb])]
      simp

theorem words_cons_nonspace {c : Char} (cs : Str) (h : isSpace c = false) :
    words (c :: cs) =
      ((c :: cs).takeWhile (fun d => !isSpace d)) ::
        words ((c :: cs).dropWhile (fun d => !isSpace d)) := by
  simp only [words, wordsAux, h, Bool.false_eq_true, if_false]
  rw [wordsAux_acc_ne_nil cs [c] (by simp),
    List.takeWhile_cons_of_pos (by simp [h]),
    List.dropWhile_cons_of_pos (by simp [h])]
  simp [words]

theorem wordsAux_good :
    ∀ (s acc : Str), (∀ c ∈ acc, isSpace c = false) →
      goodWords (wordsAux s acc) := by
  intro s
  induction s with
  | nil =>
    intro acc hacc
    by_cases ha : acc = []
    · subst ha; intro w hw; simp [wordsAux] at hw
    · intro w hw
      simp [wordsAux, List.isEmpty_eq_false.mpr ha] at hw
      subst hw
      exact ⟨by simpa using ha, fun c hc => hacc c (by simpa using hc)⟩
  | cons c cs ih =>
    intro acc hacc
    by_cases hc : isSpace c = true
    · by_cases ha : acc = []
      · subst ha
        simpa [wordsAux, hc] using ih [] (by simp)
      · intro w hw
        simp only [wordsAux, hc, if_true, List.isEmpty_eq_false.mpr ha,
          Bool.false_eq_true, if_false, List.mem_cons] at hw
        rcases hw with rfl | hw
        · exact ⟨by simpa using ha, fun d hd => hacc d (by simpa using hd)⟩
        · exact ih [] (by simp) w hw
    · have hb : isSpace c = false := by simpa using hc
      simp only [wordsAux, hb, Bool.false_eq_true, if_false]
      refine ih (c :: acc) ?_
      intro d hd
      rcases List.mem_cons.mp hd with rfl | hd
      · exact hb
      · exact hacc d hd

theorem words_good (s : Str) : goodWords (words s) :=
  wordsAux_good s [] (by simp)

theorem joinSp_ne_nil (w : Str) (ws : List Str) (hw : w ≠ []) :
    joinSp (w :: ws) ≠ [] := by
  cases ws with
  | nil => simpa [joinSp] using hw
  | cons w2 ws2 =>
    cases w with
    | nil => exact absurd rfl hw
    | cons c cs => simp [joinSp]

theorem head?_joinSp (w : Str) (ws : List Str) (hw : w ≠ []) :
    (joinSp (w :: ws)).head? = w.head? := by
  cases ws with
  | nil => rfl
  | cons w2 ws2 =>
    cases w with
    | nil => exact absurd rfl hw
    | cons c cs => simp [joinSp]

theorem getLast?_joinSp (ws : List Str) (h : goodWords ws) :
    ∀ c, (joinSp ws).getLast? = some c → isSpace c = false := by
  induction ws with
  | nil => intro c hc; simp [joinSp] at hc
  | cons w ws2 ih =>
    intro c hc
    cases ws2 with
    | nil =>
      have hm : c ∈ w := List.mem_of_getLast?_eq_some (by simpa [joinSp] using hc)
      exact (h w (by simp)).2 c hm
    | cons w2 ws3 =>
      have hgood : goodWords (w2 :: ws3) := fun x hx => h x (by simp [hx])
      have hne : joinSp (w2 :: ws3) ≠ [] :=
        joinSp_ne_nil w2 ws3 (hgood w2 (by simp)).1
      obtain ⟨x, xs, hx⟩ : ∃ x xs, joinSp (w2 :: ws3) = x :: xs := by
        cases hJ : joinSp (w2 :: ws3) with
        | nil => exact absurd hJ hne
        | cons x xs => exact ⟨x, xs, rfl⟩
      have hstep : (joinSp (w :: w2 :: ws3)).getLast? = (joinSp (w2 :: ws3)).getLast? := by
        show (w ++ ' ' :: joinSp (w2 :: ws3)).getLast? = _
        rw [hx, List.getLast?_append, List.getLast?_cons_cons]
        obtain ⟨b, hb⟩ : ∃ b, (x :: xs).getLast? = some b :=
          ⟨_, List.getLast?_eq_getLast_of_ne_nil (by simp)⟩
        rw [hb, Option.or_some]
      rw [hstep] at hc
      exact ih hgood c hc

theorem words_joinSp (ws : List Str) (h : goodWords ws) :
    words (joinSp ws) = ws := by
  induction ws with
  | nil => rfl
  | cons w ws2 ih =>
    have hw : goodWord w := h w (by simp)
    obtain ⟨hwne, hwns⟩ := hw
    cases ws2 with
    | nil =>
      cases w with
      | nil => exact absurd rfl hwne
      | cons c cs =>
        have hns : ∀ d ∈ c :: cs, (!isSpace d) = true := by
          intro d hd; simp [hwns d hd]
        rw [show joinSp [c :: cs] = c :: cs from rfl,
          words_cons_nonspace cs (hwns c (by simp))]
        rw [List.takeWhile_eq_self_iff.mpr hns,
          List.dropWhile_eq_nil_iff.mpr (fun d hd => hns d hd)]
        rfl
    | cons w2 ws3 =>
      have hgood2 : goodWords (w2 :: ws3) := fun x hx => h x (by simp [hx])
      cases w with
      | nil => exact absurd rfl hwne
      | cons c cs =>
        have hns : ∀ d ∈ c :: cs, (!isSpace d) = true := by
          intro d hd; simp [hwns d hd]
        rw [show joinSp ((c :: cs) :: w2 :: ws3)
            = c :: (cs ++ ' ' :: joinSp (w2 :: ws3)) from rfl,
          words_cons_nonspace _ (hwns c (by simp)),
          show (c : Char) :: (cs ++ ' ' :: joinSp (w2 :: ws3))
            = (c :: cs) ++ ' ' :: joinSp (w2 :: ws3) from rfl,
          takeWhile_all_append (c :: cs) _ hns,
          dropWhile_all_append (c :: cs) _ hns,
          List.takeWhile_cons_of_neg (by decide),
          List.dropWhile_cons_of_neg (by decide),
          List.append_nil,
          words_cons_space (joinSp (w2 :: ws3)) (by decide),
          ih hgood2]

theorem joinSp_concat (ch : Char) :
    ∀ ws : List Str, ws ≠ [] →
      ∃ ws2, ws2 ≠ [] ∧
        (goodWords ws → isSpace ch = false → goodWords ws2) ∧
        joinSp ws ++ [ch] = joinSp ws2 := by
  intro ws
  induction ws with
  | nil => intro hne; exact absurd rfl hne
  | cons w ws2 ih =>
    intro _
    cases ws2 with
    | nil =>
      refine ⟨[w ++ [ch]], by simp, ?_, by simp [joinSp]⟩
      intro hg hch x hx
      have hx2 : x = w ++ [ch] := by simpa using hx
      subst hx2
      refine ⟨by simp, ?_⟩
      intro d hd
      rcases List.mem_append.mp hd with hd | hd
      · exact (hg w (by simp)).2 d hd
      · rw [show d = ch from by simpa using hd]
        exact hch
    | cons w2 ws3 =>
      obtain ⟨ws2x, hne2, hgood2, heq2⟩ := ih (by simp)
      obtain ⟨a, b, hab⟩ : ∃ a b, ws2x = a :: b := by
        cases ws2x with
        | nil => exact absurd rfl hne2
        | cons a b => exact ⟨a, b, rfl⟩
      refine ⟨w :: ws2x, by simp, ?_, ?_⟩
      · intro hg hch x hx
        rcases List.mem_cons.mp hx with rfl | hx
        · exact hg x (by simp)
        · exact hgood2 (fun y hy => hg y (by simp [hy])) hch x hx
      · show (w ++ ' ' :: joinSp (w2 :: ws3)) ++ [ch] = joinSp (w :: ws2x)
        rw [List.append_assoc,
          show (' ' :: joinSp (w2 :: ws3)) ++ [ch]
            = ' ' :: (joinSp (w2 :: ws3) ++ [ch]) from rfl,
          heq2, hab]
        rfl

theorem punctuate_joinSp (ws : List Str) (hg : goodWords ws) :
    ∃ ws2, goodWords ws2 ∧ punctuate (joinSp ws) = joinSp ws2 := by
  cases hL : (joinSp ws).getLast? with
  | none => exact ⟨ws, hg, by simp [punctuate, hL]⟩
  | some c =>
    by_cases hp : isPunct c = true
    · exact ⟨ws, hg, by simp [punctuate, hL, hp]⟩
    · have hwsne : ws ≠ [] := by
        rintro rfl
        simp [joinSp] at hL
      obtain ⟨ws2, _, hgood2, heq2⟩ := joinSp_concat '.' ws hwsne
      refine ⟨ws2, hgood2 hg (by decide), ?_⟩
      simp [punctuate, hL, hp, heq2]

theorem pyStrip_eq_self (s : Str)
    (h1 : ∀ c, s.head? = some c → isSpace c = false)
    (h2 : ∀ c, s.getLast? = some c → isSpace c = false) :
    pyStrip s = s := by
  cases s with
  | nil => rfl
  | cons c cs =>
    have hc : isSpace c = false := h1 c rfl
    show (((c :: cs).dropWhile isSpace).reverse.dropWhile isSpace).reverse = c :: cs
    rw [List.dropWhile_cons_of_neg (by simp [hc])]
    cases hr : (c :: cs).reverse with
    | nil => simp at hr
    | cons d ds =>
      have hd : (c :: cs).getLast? = some d := by
        rw [List.getLast?_eq_head?_reverse, hr]
        rfl
      rw [List.dropWhile_cons_of_neg (by simp [h2 d hd]), ← hr,
        List.reverse_reverse]

theorem pyStrip_joinSp (ws : List Str) (hg : goodWords ws) :
    pyStrip (joinSp ws) = joinSp ws := by
  apply pyStrip_eq_self
  · intro c hc
    cases ws with
    | nil => simp [joinSp] at hc
    | cons w ws2 =>
      have hwne := (hg w (by simp)).1
      rw [head?_joinSp w ws2 hwne] at hc
      cases w with
      | nil => exact absurd rfl hwne
      | cons a b =>
        have hca : c = a := by simpa using hc.symm
        subst hca
        exact (hg (c :: b) (by simp)).2 c (by simp)
  · exact getLast?_joinSp ws hg

theorem foldl_stripOnePrefix_eq_self (t : Str) :
    ∀ ps : List Str, (∀ p ∈ ps, (lowerStr p).isPrefixOf (lowerStr t) = false) →
      ps.foldl stripOnePrefix t = t := by
  intro ps
  induction ps with
  | nil => intro _; rfl
  | cons p ps2 ih =>
    intro h
    show List.foldl stripOnePrefix (stripOnePrefix t p) ps2 = t
    rw [show stripOnePrefix t p = t from by simp [stripOnePrefix, h p (by simp)]]
    exact ih (fun q hq => h q (by simp [hq]))

theorem unquote_of_punct_last (s : Str) (c : Char)
    (hL : s.getLast? = some c) (hp : isPunct c = true) :
    unquote s = s := by
  have hcq : (c == quoteChar) = false := by
    simp only [isPunct, Bool.or_eq_true, beq_iff_eq] at hp
    rcases hp with (rfl | rfl) | rfl <;> decide
  have hq : endsWithQuote s = false := by
    simp [endsWithQuote, hL, hcq]
  simp [unquote, hq]

theorem punctuate_of_punct_last (s : Str) (c : Char)
    (hL : s.getLast? = some c) (hp : isPunct c = true) :
    punctuate s = s := by
  simp [punctuate, hL, hp]

theorem punctuate_last_punct (s : Str) (h : punctuate s ≠ []) :
    ∃ c, (punctuate s).getLast? = some c ∧ isPunct c = true := by
  cases hL : s.getLast? with
  | none =>
    have hs : s = [] := List.getLast?_eq_none_iff.mp hL
    exact absurd (by simp [punctuate, hL, hs]) h
  | some c =>
    by_cases hp : isPunct c = true
    · exact ⟨c, by simp [punctuate, hL, hp], hp⟩
    · refine ⟨'.', ?_, by decide⟩
      simp [punctuate, hL, hp, List.getLast?_concat]

theorem cleanResponse_joinSp (s : Str) :
    ∃ ws, goodWords ws ∧ cleanResponse s = joinSp ws := by
  obtain ⟨ws2, hg2, heq⟩ :=
    punctuate_joinSp _ (words_good (unquote (stripPrefixes (pyStrip s))))
  exact ⟨ws2, hg2, heq⟩

theorem cleanResponse_last_punct (s : Str) (h : cleanResponse s ≠ []) :
    ∃ c, (cleanResponse s).getLast? = some c ∧ isPunct c = true :=
  punctuate_last_punct _ h

/-! ### Claim C1 (idempotence of the normalizer) -/

/-- Claim C1, as stated, is false: on `"instead: rephrase: x"` the first
pass strips only the `instead:` prefix (the scan has already passed the
`rephrase:` entry), so the second pass strips `rephrase:` and the two
passes disagree. -/
theorem C1_idempotence_counterexample :
    cleanResponse "instead: rephrase: x".toList = "rephrase: x.".toList ∧
    cleanResponse (cleanResponse "instead: rephrase: x".toList) = "x.".toList ∧
    cleanResponse (cleanResponse "instead: rephrase: x".toList) ≠
      cleanResponse "instead: rephrase: x".toList := by
  refine ⟨by decide, by decide, by decide⟩

/-- Claim C1 (amended): the normalizer is idempotent on every input
whose normalized form does not itself begin, case-insensitively, with
one of the scaffolding prefixes; re-normalising such an output changes
nothing (the output is already trimmed, collapsed, unquoted and
punctuated). -/
theorem C1_normalize_idempotent (s : Str)
    (h : ∀ p ∈ prefixesToRemove,
      (lowerStr p).isPrefixOf (lowerStr (cleanResponse s)) = false) :
    cleanResponse (cleanResponse s) = cleanResponse s := by
  obtain ⟨ws, hg, hrep⟩ := cleanResponse_joinSp s
  by_cases hnil : cleanResponse s = []
  · rw [hnil]
    decide
  · obtain ⟨c, hL, hp⟩ := cleanResponse_last_punct s hnil
    have h1 : pyStrip (cleanResponse s) = cleanResponse s := by
      rw [hrep]
      exact pyStrip_joinSp ws hg
    have h2 : stripPrefixes (pyStrip (cleanResponse s)) = cleanResponse s := by
      rw [h1]
      exact foldl_stripOnePrefix_eq_self _ prefixesToRemove h
    have h3 : unquote (stripPrefixes (pyStrip (cleanResponse s))) = cleanResponse s := by
      rw [h2]
      exact unquote_of_punct_last _ c hL hp
    have h4 : collapseSpaces (unquote (stripPrefixes (pyStrip (cleanResponse s))))
        = cleanResponse s := by
      rw [h3]
      show joinSp (words (cleanResponse s)) = cleanResponse s
      rw [hrep, words_joinSp ws hg]
    show punctuate (collapseSpaces (unquote (stripPrefixes (pyStrip (cleanResponse s)))))
      = cleanResponse s
    rw [h4]
    exact punctuate_of_punct_last _ c hL hp

/-- Witness for C1 at the concrete input `"good job"`, whose normalized
form `"good job."` starts with none of the scaffolding prefixes. -/
theorem C1_witness :
    (∀ p ∈ prefixesToRemove,
      (lowerStr p).isPrefixOf (lowerStr (cleanResponse "good job".toList)) = false) ∧
    cleanResponse (cleanResponse "good job".toList) = cleanResponse "good job".toList :=
  ⟨by decide, C1_normalize_idempotent "good job".toList (by decide)⟩

/-! ### Claim C8 (terminal punctuation) -/

/-- Claim C8, as stated, is false: the single-space input is non-empty,
yet its normalized form is the empty string and in particular does not
end in `.`, `!` or `?`. -/
theorem C8_punctuation_counterexample :
    " ".toList ≠ ([] : Str) ∧ cleanResponse " ".toList = ([] : Str) := by
  refine ⟨by decide, by decide⟩

/-- Claim C8 (amended): whenever the normalizer returns a non-empty
string, its last character is `.`, `!` or `?` (the normalizer can
return the empty string on non-empty input, e.g. whitespace-only
input). -/
theorem C8_nonempty_ends_punct (s : Str) (h : cleanResponse s ≠ []) :
    ∃ c, (cleanResponse s).getLast? = some c ∧ isPunct c = true :=
  cleanResponse_last_punct s h

/-- Witness for C8 at the concrete input `"hi"`. -/
theorem C8_witness :
    cleanResponse "hi".toList ≠ [] ∧
    (∃ c, (cleanResponse "hi".toList).getLast? = some c ∧ isPunct c = true) :=
  ⟨by decide, C8_nonempty_ends_punct "hi".toList (by decide)⟩

/-! ### Claim C9 (number of prefixes removed in one pass) -/

theorem stripCount_fst :
    ∀ (ps : List Str) (s : Str) (n : Nat),
      (ps.foldl stripCountStep (s, n)).1 = ps.foldl stripOnePrefix s := by
  intro ps
  induction ps with
  | nil => intro s n; rfl
  | cons p ps2 ih =>
    intro s n
    simp only [List.foldl_cons]
    by_cases hp : (lowerStr p).isPrefixOf (lowerStr s) = true
    · rw [show stripCountStep (s, n) p = (pyStrip (s.drop p.length), n + 1) from by
        simp [stripCountStep, hp]]
      rw [show stripOnePrefix s p = pyStrip (s.drop p.length) from by
        simp [stripOnePrefix, hp]]
      exact ih _ _
    · rw [show stripCountStep (s, n) p = (s, n) from by simp [stripCountStep, hp]]
      rw [show stripOnePrefix s p = s from by simp [stripOnePrefix, hp]]
      exact ih _ _

theorem stripCount_le :
    ∀ (ps : List Str) (s : Str) (n : Nat),
      (ps.foldl stripCountStep (s, n)).2 ≤ n + ps.length := by
  intro ps
  induction ps with
  | nil => intro s n; simp
  | cons p ps2 ih =>
    intro s n
    simp only [List.foldl_cons, List.length_cons]
    by_cases hp : (lowerStr p).isPrefixOf (lowerStr s) = true
    · rw [show stripCountStep (s, n) p = (pyStrip (s.drop p.length), n + 1) from by
        simp [stripCountStep, hp]]
      have := ih (pyStrip (s.drop p.length)) (n + 1)
      omega
    · rw [show stripCountStep (s, n) p = (s, n) from by simp [stripCountStep, hp]]
      have := ih s n
      omega

/-- Claim C9, as stated, is false: on `"rephrase: alternative: hi"` one
normalization pass removes two scaffolding prefixes (`rephrase:` and
then `alternative:`), since the scan over the fixed list does not stop
after the first match. -/
theorem C9_single_prefix_counterexample :
    removedPrefixCount "rephrase: alternative: hi".toList = 2 ∧
    cleanResponse "rephrase: alternative: hi".toList = "hi.".toList ∧
    ¬ removedPrefixCount "rephrase: alternative: hi".toList ≤ 1 := by
  refine ⟨by decide, by decide, by decide⟩

/-- Claim C9 (amended): in one normalization pass the scan over the
fixed prefix list removes at most one prefix per list entry — hence at
most 11, the length of the list, and possibly more than one — and the
counting scan computes exactly the text produced by the normalizer's
prefix-removal phase. -/
theorem C9_prefix_removal_bound (s : Str) :
    removedPrefixCount s ≤ prefixesToRemove.length ∧
    prefixesToRemove.length = 11 ∧
    (stripPrefixesCount (pyStrip s)).1 = stripPrefixes (pyStrip s) := by
  refine ⟨?_, by decide, stripCount_fst prefixesToRemove (pyStrip s) 0⟩
  have := stripCount_le prefixesToRemove (pyStrip s) 0
  simpa [removedPrefixCount, stripPrefixesCount] using this

/-! ### Claim C5 (deterministic fallback selection) -/

/-- Claim C5: the fallback message comes from the fixed pool of five
canned messages, the choice is deterministic, and it depends only on
the input length modulo 5. -/
theorem C5_fallback_deterministic (s t : Str)
    (h : s.length % 5 = t.length % 5) :
    fallbackMessages.length = 5 ∧
    getFallbackMessage s = getFallbackMessage s ∧
    getFallbackMessage s = getFallbackMessage t ∧
    getFallbackMessage s ∈ fallbackMessages := by
  refine ⟨rfl, rfl, ?_, ?_⟩
  · show fallbackMessages.getD (s.length % fallbackMessages.length) [] = _
    rw [show fallbackMessages.length = 5 from rfl, h]
    rfl
  · have hBall : ∀ i, i < 5 → fallbackMessages.getD i [] ∈ fallbackMessages := by decide
    have h5 : s.length % 5 < 5 := Nat.mod_lt _ (by norm_num)
    show fallbackMessages.getD (s.length % fallbackMessages.length) [] ∈ _
    rw [show fallbackMessages.length = 5 from rfl]
    exact hBall _ h5

/-- Witness for C5 at two concrete inputs of lengths 2 and 7. -/
theorem C5_witness :
    "ab".toList.length % 5 = "hello12".toList.length % 5 ∧
    getFallbackMessage "ab".toList = getFallbackMessage "hello12".toList :=
  ⟨by decide, (C5_fallback_deterministic "ab".toList "hello12".toList (by decide)).2.2.1⟩

/-! ### Claim C10 (is_toxic failure contract) -/

/-- Claim C10: `is_toxic` returns `(False, 0.0)` on any failed
`analyze_comment` call, returns `(score > threshold, score)` with a
strict comparison on success, and for any non-negative threshold an
oracle failure is indistinguishable from a successful score of 0. -/
theorem C10_is_toxic_contract (pApi : POracle) (text : Str) (thr : ℚ) :
    (∀ m, pApi text = .err m → pIsToxic pApi text thr = (false, 0)) ∧
    (∀ s c, pApi text = .ok (some (s, c)) →
      pIsToxic pApi text thr = (decide (s > thr), s)) ∧
    (pApi text = .ok none → pIsToxic pApi text thr = (decide ((0 : ℚ) > thr), 0)) ∧
    (0 ≤ thr → ∀ m c (pApi2 : POracle), pApi text = .err m →
      pApi2 text = .ok (some (0, c)) →
      pIsToxic pApi text thr = pIsToxic pApi2 text thr) := by
  refine ⟨?_, ?_, ?_, ?_⟩
  · intro m hm
    simp [pIsToxic, hm]
  · intro sc c hs
    simp [pIsToxic, hs]
  · intro h0
    simp [pIsToxic, h0]
  · intro hthr m c pApi2 hm h2
    rw [show pIsToxic pApi text thr = (false, 0) from by simp [pIsToxic, hm]]
    rw [show pIsToxic pApi2 text thr = (decide ((0 : ℚ) > thr), 0) from by
      simp [pIsToxic, h2]]
    rw [decide_eq_false (not_lt.mpr hthr)]

/-- Witness for C10: a failing oracle, a 0.85-scoring oracle with
threshold 0.7, and the indistinguishability of failure from a 0 score. -/
theorem C10_witness :
    pIsToxic pOracleDown "bad text".toList (7/10) = (false, 0) ∧
    pIsToxic pOracleToxic "bad text".toList (7/10) = (true, 17/20) ∧
    pIsToxic pOracleDown "bad text".toList (7/10)
      = pIsToxic (fun _ => PResp.ok (some (0, none))) "bad text".toList (7/10) := by
  refine ⟨(C10_is_toxic_contract pOracleDown _ _).1 _ rfl, ?_, ?_⟩
  · rw [(C10_is_toxic_contract pOracleToxic "bad text".toList (7/10)).2.1
      (17/20) (some (9/10)) rfl]
    norm_num
  · exact (C10_is_toxic_contract pOracleDown "bad text".toList (7/10)).2.2.2
      (by norm_num) _ none _ rfl rfl

/-! ### Claim C2 (retry budget of the generation client) -/

theorem genAux_persistent_failure (oracle : Nat → GenResp) (style : Style) (N : Nat)
    (hfail : ∀ i, usableResp (oracle i) = false) :
    ∀ (rem attempt : Nat),
      (genAux oracle style N rem attempt).1.success = false ∧
      (genAux oracle style N rem attempt).2 ≤ rem ∧
      ((∃ e, (genAux oracle style N rem attempt).1.error = transportMsg N e) ∨
        (genAux oracle style N rem attempt).1.error = unusableMsg style N) := by
  intro rem
  induction rem with
  | zero => intro _; exact ⟨rfl, Nat.le_refl 0, Or.inr rfl⟩
  | succ rem ih =>
    intro attempt
    have hf := hfail attempt
    obtain ⟨h1, h2, h3⟩ := ih (attempt + 1)
    cases ho : oracle attempt with
    | ok status body =>
      rw [ho] at hf
      by_cases hst : (status == 200) = true
      · have hu : usableText (cleanResponse (pyStrip body)) = false := by
          simpa [usableResp, hst] using hf
        have hunf : genAux oracle style N (rem + 1) attempt
            = bumpCall (genAux oracle style N rem (attempt + 1)) := by
          simp only [genAux, ho, hst, if_true, hu, Bool.false_eq_true, if_false]
        rw [hunf]
        refine ⟨h1, ?_, h3⟩
        show (genAux oracle style N rem (attempt + 1)).2 + 1 ≤ rem + 1
        omega
      · have hunf : genAux oracle style N (rem + 1) attempt
            = bumpCall (genAux oracle style N rem (attempt + 1)) := by
          simp only [genAux, ho, hst, Bool.false_eq_true, if_false]
        rw [hunf]
        refine ⟨h1, ?_, h3⟩
        show (genAux oracle style N rem (attempt + 1)).2 + 1 ≤ rem + 1
        omega
    | exn e =>
      by_cases hlast : (attempt == N - 1) = true
      · have hunf : genAux oracle style N (rem + 1) attempt
            = ({ success := false, error := transportMsg N e }, 1) := by
          simp only [genAux, ho, hlast, if_true]
        rw [hunf]
        exact ⟨rfl, by omega, Or.inl ⟨e, rfl⟩⟩
      · have hunf : genAux oracle style N (rem + 1) attempt
            = bumpCall (genAux oracle style N rem (attempt + 1)) := by
          simp only [genAux, ho, hlast, Bool.false_eq_true, if_false]
        rw [hunf]
        refine ⟨h1, ?_, h3⟩
        show (genAux oracle style N rem (attempt + 1)).2 + 1 ≤ rem + 1
        omega

/-- Claim C2: with `max_retries = N` and a persistently failing oracle
(no call yields a usable HTTP-200 response), at most `N` oracle calls
are made, the result is a terminal failure (`success := false`), and
its error message is either the transport-failure message (carrying the
attempt count and the cause) or the unusable-output message; the two
message formats never coincide. -/
theorem C2_retry_budget (oracle : Nat → GenResp) (style : Style) (N : Nat)
    (hfail : ∀ i, usableResp (oracle i) = false) :
    (generateSingleRephrase oracle style N).1.success = false ∧
    (generateSingleRephrase oracle style N).2 ≤ N ∧
    ((∃ e, (generateSingleRephrase oracle style N).1.error = transportMsg N e) ∨
      (generateSingleRephrase oracle style N).1.error = unusableMsg style N) ∧
    (∀ (M M2 : Nat) (c : Str) (st : Style), transportMsg M c ≠ unusableMsg st M2) := by
  obtain ⟨h1, h2, h3⟩ := genAux_persistent_failure oracle style N hfail N 0
  refine ⟨h1, h2, h3, ?_⟩
  intro M M2 c st h
  have hR : (transportMsg M c).head? = some 'R' := rfl
  have hF : (unusableMsg st M2).head? = some 'F' := by cases st <;> rfl
  rw [h] at hR
  exact absurd (Option.some.inj (hF.symm.trans hR)) (by decide)

/-- Witness for C2: a transport layer that is always down, neutral
style, budget 2. -/
theorem C2_witness :
    (generateSingleRephrase oracleDown Style.neutral 2).1.success = false ∧
    (generateSingleRephrase oracleDown Style.neutral 2).2 ≤ 2 ∧
    ((∃ e, (generateSingleRephrase oracleDown Style.neutral 2).1.error
        = transportMsg 2 e) ∨
      (generateSingleRephrase oracleDown Style.neutral 2).1.error
        = unusableMsg Style.neutral 2) ∧
    (∀ (M M2 : Nat) (c : Str) (st : Style), transportMsg M c ≠ unusableMsg st M2) :=
  C2_retry_budget oracleDown Style.neutral 2 (fun _ => rfl)

/-! ### Claim C7 (every style yields an attempt or an error) -/

theorem processStyles_length (oracle : Style → Nat → GenResp) (m : Nat) :
    ∀ sts : List Style,
      (processStyles oracle m sts).1.length + (processStyles oracle m sts).2.length
        = sts.length := by
  intro sts
  induction sts with
  | nil => rfl
  | cons st rest ih =>
    by_cases hs : (generateSingleRephrase (oracle st) st m).1.success = true
    · have hunf : processStyles oracle m (st :: rest)
          = ({ style := styleValue st
               text := (generateSingleRephrase (oracle st) st m).1.rephrasedText
               attempts := (generateSingleRephrase (oracle st) st m).1.attempt }
              :: (processStyles oracle m rest).1,
             (processStyles oracle m rest).2) := by
        simp only [processStyles, hs, if_true]
      rw [hunf]
      simp only [List.length_cons]
      omega
    · have hunf : processStyles oracle m (st :: rest)
          = ((processStyles oracle m rest).1,
             { style := styleValue st
               error := (generateSingleRephrase (oracle st) st m).1.error }
              :: (processStyles oracle m rest).2) := by
        simp only [processStyles, Bool.not_eq_true] at hs ⊢
        simp only [hs, Bool.false_eq_true, if_false]
      rw [hunf]
      simp only [List.length_cons]
      omega

/-- Claim C7, as stated, is false in one corner: a call with an
explicitly empty style list returns zero attempts and zero errors
simultaneously (the Python code only substitutes the default styles for
`None`, not for `[]`). -/
theorem C7_empty_styles_counterexample :
    (generateMultipleRephrases (fun _ _ => GenResp.exn []) "llama2".toList
      "x".toList none (some []) 2).rephrases = [] ∧
    (generateMultipleRephrases (fun _ _ => GenResp.exn []) "llama2".toList
      "x".toList none (some []) 2).errors = [] ∧
    (generateMultipleRephrases (fun _ _ => GenResp.exn []) "llama2".toList
      "x".toList none (some []) 2).success = false := by
  refine ⟨rfl, rfl, rfl⟩

/-- Claim C7 (amended): every requested style contributes exactly one
entry — an attempt on success, an error on failure — so attempts plus
errors equals the number of requested styles and no style's failure
stops the rest; consequently, whenever at least one style is requested
(in particular for the `None` default), attempts and errors are never
both empty. -/
theorem C7_attempts_or_errors (oracle : Style → Nat → GenResp) (modelName : Str)
    (comment : Str) (score : Option ℚ) (styles : Option (List Style))
    (maxRetries : Nat) :
    (generateMultipleRephrases oracle modelName comment score styles
        maxRetries).rephrases.length
      + (generateMultipleRephrases oracle modelName comment score styles
          maxRetries).errors.length
      = (styles.getD defaultStyles).length ∧
    (styles.getD defaultStyles ≠ [] →
      ¬((generateMultipleRephrases oracle modelName comment score styles
          maxRetries).rephrases = [] ∧
        (generateMultipleRephrases oracle modelName comment score styles
          maxRetries).errors = [])) := by
  have hA : (generateMultipleRephrases oracle modelName comment score styles
        maxRetries).rephrases.length
      + (generateMultipleRephrases oracle modelName comment score styles
          maxRetries).errors.length
      = (styles.getD defaultStyles).length :=
    processStyles_length oracle maxRetries (styles.getD defaultStyles)
  refine ⟨hA, ?_⟩
  intro hne hc
  rw [hc.1, hc.2] at hA
  simp only [List.length_nil, Nat.add_zero] at hA
  exact hne (List.length_eq_zero.mp hA.symm)

/-- Witness for C7: one requested style against a dead transport. -/
theorem C7_witness :
    (generateMultipleRephrases oracleStylesDown "llama2".toList "x".toList none
        (some [Style.neutral]) 2).rephrases.length
      + (generateMultipleRephrases oracleStylesDown "llama2".toList "x".toList none
          (some [Style.neutral]) 2).errors.length = 1 ∧
    ¬((generateMultipleRephrases oracleStylesDown "llama2".toList "x".toList none
        (some [Style.neutral]) 2).rephrases = [] ∧
      (generateMultipleRephrases oracleStylesDown "llama2".toList "x".toList none
        (some [Style.neutral]) 2).errors = []) := by
  have h := C7_attempts_or_errors oracleStylesDown "llama2".toList "x".toList none
    (some [Style.neutral]) 2
  exact ⟨h.1, h.2 (by decide)⟩

/-! ### Claim C6 (best_improvement in the persisted record) -/

theorem bestFoldl_spec (orig : ℚ) :
    ∀ (rs : List LogRephrase) (acc : ℚ),
      acc ≤ rs.foldl (bestStep orig) acc ∧
      (∀ r ∈ rs, trackedStyles.contains r.style = true →
        orig - r.toxicityScore.getD orig ≤ rs.foldl (bestStep orig) acc) ∧
      (rs.foldl (bestStep orig) acc = acc ∨
        ∃ r ∈ rs, trackedStyles.contains r.style = true ∧
          rs.foldl (bestStep orig) acc = orig - r.toxicityScore.getD orig) := by
  intro rs
  induction rs with
  | nil => intro acc; exact ⟨le_refl _, by simp, Or.inl rfl⟩
  | cons r rest ih =>
    intro acc
    simp only [List.foldl_cons]
    obtain ⟨ih1, ih2, ih3⟩ := ih (bestStep orig acc r)
    have hacc : acc ≤ bestStep orig acc r := by
      by_cases h : trackedStyles.contains r.style = true
      · rw [show bestStep orig acc r
            = max acc (orig - r.toxicityScore.getD orig) from by
          unfold bestStep; rw [if_pos h]]
        exact le_max_left _ _
      · rw [show bestStep orig acc r = acc from by unfold bestStep; rw [if_neg h]]
    refine ⟨le_trans hacc ih1, ?_, ?_⟩
    · intro r2 hr2 htr
      rcases List.mem_cons.mp hr2 with rfl | hr2
      · have hstep : orig - r2.toxicityScore.getD orig ≤ bestStep orig acc r2 := by
          rw [show bestStep orig acc r2
              = max acc (orig - r2.toxicityScore.getD orig) from by
            unfold bestStep; rw [if_pos htr]]
          exact le_max_right _ _
        exact le_trans hstep ih1
      · exact ih2 r2 hr2 htr
    · rcases ih3 with heq | ⟨r2, hr2, htr, heq⟩
      · by_cases h : trackedStyles.contains r.style = true
        · rcases le_total (orig - r.toxicityScore.getD orig) acc with hle | hle
          · left
            rw [heq, show bestStep orig acc r
                = max acc (orig - r.toxicityScore.getD orig) from by
                unfold bestStep; rw [if_pos h],
              max_eq_left hle]
          · right
            refine ⟨r, by simp, h, ?_⟩
            rw [heq, show bestStep orig acc r
                = max acc (orig - r.toxicityScore.getD orig) from by
                unfold bestStep; rw [if_pos h],
              max_eq_right hle]
        · left
          rw [heq, show bestStep orig acc r = acc from by
            unfold bestStep; rw [if_neg h]]
      · right
        exact ⟨r2, by simp [hr2], htr, heq⟩

/-- Claim C6, as stated, is false: `best_improvement` starts at `0.0`,
so a record whose only attempt has a negative improvement logs `0.0`
rather than the maximum across attempts. -/
theorem C6_best_improvement_counterexample :
    bestImprovement (1/2)
      [{ style := "neutral".toList, text := [], toxicityScore := some (9/10) }] = 0 ∧
    (1/2 : ℚ) - 9/10 = -(2/5) ∧ (0 : ℚ) ≠ -(2/5) := by
  refine ⟨?_, by norm_num, by norm_num⟩
  show List.foldl (bestStep (1/2)) 0 _ = 0
  rw [List.foldl_cons, List.foldl_nil,
    show bestStep (1/2) 0
        { style := "neutral".toList, text := [], toxicityScore := some (9/10) }
      = max 0 ((1/2 : ℚ) - (9/10 : ℚ)) from by
      unfold bestStep
      rw [if_pos (by decide)]
      rfl]
  exact max_eq_left (by norm_num)

/-- Claim C6 (amended): the persisted `best_improvement` is the maximum
of `0.0` and the improvements of the attempts whose style is one of the
three tracked keys (`neutral`, `friendly`, `formal`): it is
non-negative, dominates every tracked attempt's improvement, and is
either `0` or attained by a tracked attempt.  Attempts with any other
style — in particular the `fallback` entry — are ignored. -/
theorem C6_best_improvement_max (orig : ℚ) (rs : List LogRephrase) :
    0 ≤ bestImprovement orig rs ∧
    (∀ r ∈ rs, trackedStyles.contains r.style = true →
      orig - r.toxicityScore.getD orig ≤ bestImprovement orig rs) ∧
    (bestImprovement orig rs = 0 ∨
      ∃ r ∈ rs, trackedStyles.contains r.style = true ∧
        bestImprovement orig rs = orig - r.toxicityScore.getD orig) :=
  bestFoldl_spec orig rs 0

/-- Witness for C6 at a concrete record with one tracked attempt. -/
theorem C6_witness :
    0 ≤ bestImprovement 1 [logAttempt] ∧
    1 - (1/4 : ℚ) ≤ bestImprovement 1 [logAttempt] := by
  refine ⟨(C6_best_improvement_max 1 [logAttempt]).1, ?_⟩
  have h := (C6_best_improvement_max 1 [logAttempt]).2.1 logAttempt (by simp) (by decide)
  simpa [logAttempt] using h

/-! ### Claim C3 (unreachable toxicity oracle) -/

/-- Claim C3, as stated, is false in its analyze half: with a
constructed client whose oracle calls fail, the analyze operation does
not return a ConfigurationError/unavailable status — it completes with
a successful response scoring the text 0.0 and non-toxic, because
`is_toxic` swallows the failure. -/
theorem C3_unreachable_counterexample :
    isOkResult (analyzeCommentAdvanced (some pOracleDown) none "llama2".toList
      { text := "hello there".toList }) = true ∧
    okSuccess (analyzeCommentAdvanced (some pOracleDown) none "llama2".toList
      { text := "hello there".toList }) = true ∧
    okScore (analyzeCommentAdvanced (some pOracleDown) none "llama2".toList
      { text := "hello there".toList }) = 0 ∧
    okIsToxic (analyzeCommentAdvanced (some pOracleDown) none "llama2".toList
      { text := "hello there".toList }) = false := by
  refine ⟨by decide, by decide, by decide, by decide⟩

/-- Claim C3 (amended): when the Perspective client was never
constructed, the analyze operation is rejected with the 503
configuration error; when the client exists but its oracle calls fail,
the analyze operation does not crash — it completes successfully,
reporting score 0 and not-toxic; the health check reports the toxicity
service as `error` when probing fails and `not_available` when the
client is missing. -/
theorem C3_unavailable_behavior (failMsg : Str → Str)
    (llama : Option (Style → Nat → GenResp)) (modelName : Str)
    (req : AnalyzeRequest)
    (h1 : (pyStrip req.text).isEmpty = false)
    (h2 : ¬ 2000 < (pyStrip req.text).length) :
    analyzeCommentAdvanced none llama modelName req
      = .error { status := 503, detail := perspectiveUnavailableMsg } ∧
    isOkResult (analyzeCommentAdvanced (some (fun t => PResp.err (failMsg t)))
      llama modelName req) = true ∧
    okScore (analyzeCommentAdvanced (some (fun t => PResp.err (failMsg t)))
      llama modelName req) = 0 ∧
    okIsToxic (analyzeCommentAdvanced (some (fun t => PResp.err (failMsg t)))
      llama modelName req) = false ∧
    okSuccess (analyzeCommentAdvanced (some (fun t => PResp.err (failMsg t)))
      llama modelName req) = true ∧
    healthPerspective (some (fun t => PResp.err (failMsg t))) = "error".toList ∧
    healthPerspective none = "not_available".toList := by
  refine ⟨rfl, ?_, ?_, ?_, ?_, rfl, rfl⟩ <;>
    cases llama <;>
    simp [analyzeCommentAdvanced, isOkResult, okScore, okIsToxic, okSuccess,
      pIsToxic, h1, h2]

/-- Witness for C3 at a concrete request and failure message. -/
theorem C3_witness :
    analyzeCommentAdvanced none none "llama2".toList { text := "hello".toList }
      = .error { status := 503, detail := perspectiveUnavailableMsg } ∧
    isOkResult (analyzeCommentAdvanced
      (some (fun _ => PResp.err "net down".toList)) none "llama2".toList
      { text := "hello".toList }) = true ∧
    okScore (analyzeCommentAdvanced
      (some (fun _ => PResp.err "net down".toList)) none "llama2".toList
      { text := "hello".toList }) = 0 ∧
    okIsToxic (analyzeCommentAdvanced
      (some (fun _ => PResp.err "net down".toList)) none "llama2".toList
      { text := "hello".toList }) = false ∧
    okSuccess (analyzeCommentAdvanced
      (some (fun _ => PResp.err "net down".toList)) none "llama2".toList
      { text := "hello".toList }) = true ∧
    healthPerspective (some (fun _ => PResp.err "net down".toList)) = "error".toList ∧
    healthPerspective none = "not_available".toList :=
  C3_unavailable_behavior (fun _ => "net down".toList) none "llama2".toList
    { text := "hello".toList } (by decide) (by decide)

/-! ### Claim C4 (improvement arithmetic) -/

theorem scoreRephrases_improvement (p : POracle) (s : ℚ)
    (entries : List RephraseEntry) :
    ∀ e ∈ scoreRephrases p s entries, e.improvement = s - e.toxicityScore := by
  intro e he
  obtain ⟨rd, _, rfl⟩ := List.mem_map.mp he
  rfl

/-- Claim C4: every rewrite reported by the analyze operation —
including the fallback entry — reports an improvement equal to the
original toxicity score minus that rewrite's toxicity score, exactly. -/
theorem C4_improvement_exact (pApi : Option POracle)
    (llama : Option (Style → Nat → GenResp)) (modelName : Str)
    (req : AnalyzeRequest) (e : RephraseOut)
    (he : e ∈ okRephrases (analyzeCommentAdvanced pApi llama modelName req)) :
    e.improvement
      = okScore (analyzeCommentAdvanced pApi llama modelName req)
        - e.toxicityScore := by
  cases pApi with
  | none => simp [analyzeCommentAdvanced, okRephrases] at he
  | some p =>
    by_cases h1 : (pyStrip req.text).isEmpty = true
    · simp [analyzeCommentAdvanced, h1, okRephrases] at he
    · rw [Bool.not_eq_true] at h1
      by_cases h2 : 2000 < (pyStrip req.text).length
      · simp [analyzeCommentAdvanced, h1, h2, okRephrases] at he
      · cases llama with
        | none =>
          by_cases h3 : ((pIsToxic p (pyStrip req.text) req.threshold).1
              && req.includeRephrase) = true
          · simp [analyzeCommentAdvanced, h1, h2, h3, okRephrases] at he
          · rw [Bool.not_eq_true] at h3
            simp [analyzeCommentAdvanced, h1, h2, h3, okRephrases] at he
        | some gen =>
          by_cases h3 : ((pIsToxic p (pyStrip req.text) req.threshold).1
              && req.includeRephrase) = true
          · by_cases h4 : ((generateMultipleRephrases gen modelName (pyStrip req.text)
                  (some (pIsToxic p (pyStrip req.text) req.threshold).2)
                  (some (req.styles.take req.maxRephrases))).success
                && !(generateMultipleRephrases gen modelName (pyStrip req.text)
                  (some (pIsToxic p (pyStrip req.text) req.threshold).2)
                  (some (req.styles.take req.maxRephrases))).rephrases.isEmpty) = true
            · simp only [analyzeCommentAdvanced, h1, h2, h3, h4, okRephrases, okScore,
                Bool.false_eq_true, if_false, if_true, ite_false, ite_true] at he ⊢
              exact scoreRephrases_improvement p _ _ e he
            · rw [Bool.not_eq_true] at h4
              cases hfb : (generateMultipleRephrases gen modelName (pyStrip req.text)
                  (some (pIsToxic p (pyStrip req.text) req.threshold).2)
                  (some (req.styles.take req.maxRephrases))).fallbackMessage with
              | none =>
                simp [analyzeCommentAdvanced, h1, h2, h3, h4, hfb, okRephrases] at he
              | some fb =>
                simp only [analyzeCommentAdvanced, h1, h2, h3, h4, hfb, okRephrases,
                  okScore, Bool.false_eq_true, if_false, if_true, ite_false,
                  ite_true] at he ⊢
                have hee : e = fallbackEntry
                    (pIsToxic p (pyStrip req.text) req.threshold).2 fb := by
                  simpa using he
                subst hee
                rfl
          · rw [Bool.not_eq_true] at h3
            simp [analyzeCommentAdvanced, h1, h2, h3, okRephrases] at he

theorem C4_witness_rephrases :
    okRephrases (analyzeCommentAdvanced (some pOracleToxic) (some genOracleOk)
      "llama2".toList reqPolite) = [rephraseNeutralOut] := by
  have h1 : (pyStrip reqPolite.text).isEmpty = false := by decide
  have h2 : ¬ 2000 < (pyStrip reqPolite.text).length := by decide
  have h3 : ((pIsToxic pOracleToxic (pyStrip reqPolite.text) reqPolite.threshold).1
      && reqPolite.includeRephrase) = true := by
    have : ((7 : ℚ)/10 < 17/20) := by norm_num
    simp [pIsToxic, pOracleToxic, reqPolite, this]
  have h4 : ((generateMultipleRephrases genOracleOk "llama2".toList
        (pyStrip reqPolite.text)
        (some (pIsToxic pOracleToxic (pyStrip reqPolite.text) reqPolite.threshold).2)
        (some (reqPolite.styles.take reqPolite.maxRephrases))).success
      && !(generateMultipleRephrases genOracleOk "llama2".toList
        (pyStrip reqPolite.text)
        (some (pIsToxic pOracleToxic (pyStrip reqPolite.text) reqPolite.threshold).2)
        (some (reqPolite.styles.take reqPolite.maxRephrases))).rephrases.isEmpty)
      = true := by decide
  simp only [analyzeCommentAdvanced, h1, h2, h3, h4, okRephrases,
    Bool.false_eq_true, if_false, if_true, ite_false, ite_true]
  rw [show (generateMultipleRephrases genOracleOk "llama2".toList
      (pyStrip reqPolite.text)
      (some (pIsToxic pOracleToxic (pyStrip reqPolite.text) reqPolite.threshold).2)
      (some (reqPolite.styles.take reqPolite.maxRephrases))).rephrases
      = [{ style := "neutral".toList, text := "This is a polite rephrase.".toList
           attempts := 1 }] from by decide]
  have hsc : (pIsToxic pOracleToxic "This is a polite rephrase.".toList (7/10)).2
      = 17/20 := rfl
  have hsc2 : (pIsToxic pOracleToxic (pyStrip reqPolite.text) reqPolite.threshold).2
      = 17/20 := rfl
  simp only [scoreRephrases, List.map, hsc, hsc2]
  simp only [rephraseNeutralOut, List.cons.injEq, and_true, RephraseOut.mk.injEq,
    true_and]
  norm_num

/-- Witness for C4: a full concrete pipeline run (toxic original scored
0.85, one neutral rewrite re-scored 0.85) whose reported rewrite
carries improvement 0.85 - 0.85 = 0. -/
theorem C4_witness :
    rephraseNeutralOut ∈ okRephrases (analyzeCommentAdvanced (some pOracleToxic)
      (some genOracleOk) "llama2".toList reqPolite) ∧
    rephraseNeutralOut.improvement
      = okScore (analyzeCommentAdvanced (some pOracleToxic) (some genOracleOk)
          "llama2".toList reqPolite) - rephraseNeutralOut.toxicityScore := by
  have hmem : rephraseNeutralOut ∈ okRephrases (analyzeCommentAdvanced
      (some pOracleToxic) (some genOracleOk) "llama2".toList reqPolite) := by
    rw [C4_witness_rephrases]
    exact List.mem_singleton.mpr rfl
  exact ⟨hmem, C4_improvement_exact (some pOracleToxic) (some genOracleOk)
    "llama2".toList reqPolite rephraseNeutralOut hmem⟩

end AInsta
